import Mathlib

/-!
Shallow embedding of the Flappy-bird repository.

The repository has two Python source files:
* flappy_ai.py       — the evolutionary variant (namespace FlappyAI below);
* flappy_playable.py — the human-vs-AI variant (namespace FlappyPlayable below).

Python floats are modelled as exact rationals; all the constants of the
program (0.4, -7.0, 0.1, 580, 12, 80, ...) are exactly representable.
The one transcendental operation, math.exp in the sigmoid activation, is
modelled with Real.exp; the flap decision is therefore a Prop
(flapProp), characterised decidably by flapProp_iff below.
Random draws (mutation gates and deltas, tournament samples) are
externalised as explicit parameters of the functions that consume them.
A Python expression that can raise (indexing pipes[0] on an empty list,
tournament[0] on an empty sample) is modelled with Option, none meaning
the raised exception.
-/

/-- The brain dictionary of both variants: four order-significant weights
and a bias. -/
structure Brain where
  weights : Fin 4 → ℚ
  bias : ℚ

/-- The all-zero brain used in the end-to-end scenario of the spec. -/
def zeroBrain : Brain := { weights := fun _ => 0, bias := 0 }

/-- The sigmoid flap decision shared by both variants (think, last lines):
activated = 1.0 / (1.0 + math.exp(-max(-500, min(500, output)))) and the
returned decision is activated > 0.5. -/
def flapProp (raw : ℚ) : Prop :=
  1 / (1 + Real.exp (-(max (-500 : ℝ) (min 500 (raw : ℝ))))) > 1 / 2

/-- Sequential construction of a list from an indexed Option-producing
maker, modelling a loop that appends one element per iteration and
raises (none) if any iteration raises; used for the offspring-filling
while loop of create_next_generation. -/
def buildList {α : Type} (mk : ℕ → Option α) : ℕ → ℕ → Option (List α)
  | _, 0 => some []
  | k, n + 1 =>
    match mk k with
    | none => none
    | some a =>
      match buildList mk (k + 1) n with
      | none => none
      | some rest => some (a :: rest)

namespace FlappyAI

/-- The Bird of flappy_ai.py (rendering-only attributes omitted). -/
structure Bird where
  x : ℚ
  y : ℚ
  velocity : ℚ
  alive : Bool
  score : ℕ
  fitness : ℚ
  brain : Brain

/-- Bird.update: velocity += 0.4 (gravity); y += velocity; then the bounds
check marks the bird dead when y <= 0 or y >= 580 (alive is otherwise
left unchanged). -/
def Bird.update (b : Bird) : Bird :=
  { b with
    velocity := b.velocity + 0.4
    y := b.y + (b.velocity + 0.4)
    alive :=
      if b.y + (b.velocity + 0.4) ≤ 0 ∨ b.y + (b.velocity + 0.4) ≥ 580 then false
      else b.alive }

/-- Bird.flap: set velocity to -7.0. -/
def Bird.flap (b : Bird) : Bird := { b with velocity := -7.0 }

/-- Bird.copy_brain: a value copy of the brain (the weights list is
copied, the bias is a number). -/
def Bird.copy_brain (b : Bird) : Brain :=
  { weights := b.brain.weights, bias := b.brain.bias }

/-- The Pipe of flappy_ai.py; width is always 80 at construction. -/
structure Pipe where
  x : ℚ
  width : ℚ
  top_height : ℚ
  bottom_height : ℚ

/-- Pipe.collides_with: the bird (radius 12) collides iff its horizontal
extent strictly overlaps the pipe column and its vertical extent pokes
above top_height or below bottom_height. -/
def Pipe.collides_with (p : Pipe) (b : Bird) : Bool :=
  if b.x + 12 > p.x ∧ b.x - 12 < p.x + p.width then
    if b.y - 12 < p.top_height ∨ b.y + 12 > p.bottom_height then true
    else false
  else false

/-- One step of the closest-pipe fold inside think: a pipe is a candidate
when pipe.x > bird.x - 50; the accumulator keeps the candidate of
strictly least horizontal distance seen so far. -/
def closestStep (bx : ℚ) (acc : Option (Pipe × ℚ)) (p : Pipe) : Option (Pipe × ℚ) :=
  if bx - 50 < p.x then
    match acc with
    | none => some (p, |p.x - bx|)
    | some (q, d) => if |p.x - bx| < d then some (p, |p.x - bx|) else some (q, d)
  else acc

/-- The closest-pipe search loop of think (min_distance starts at
infinity, so the first candidate always replaces the empty accumulator). -/
def closestPipe (bx : ℚ) (pipes : List Pipe) : Option Pipe :=
  (pipes.foldl (closestStep bx) none).map Prod.fst

/-- The pipe think actually uses: the closest candidate, or pipes[0] as
fallback when no candidate exists; indexing pipes[0] on an empty list
raises, modelled by none. -/
def targetPipe (bx : ℚ) (pipes : List Pipe) : Option Pipe :=
  match closestPipe bx pipes with
  | some p => some p
  | none => pipes.head?

/-- The four normalized network inputs of think. -/
def inputsOf (b : Bird) (p : Pipe) : Fin 4 → ℚ :=
  ![b.y / 600, b.velocity / 10, (p.x - b.x) / 400,
    ((p.top_height + p.bottom_height) / 2) / 600]

/-- The raw affine output of think: bias plus the weighted sum of the
four inputs. -/
def rawOf (b : Bird) (p : Pipe) : ℚ :=
  b.brain.bias + ∑ i : Fin 4, inputsOf b p i * b.brain.weights i

/-- Bird.think: pick the target pipe, compute the raw sum, clamp,
activate with the sigmoid and compare with 0.5; none models the
IndexError on an empty pipe list. -/
def think (b : Bird) (pipes : List Pipe) : Option Prop :=
  (targetPipe b.x pipes).map (fun p => flapProp (rawOf b p))

/-- The Fitness Evaluator: fitness = score + frame_count * 0.1. -/
def fitnessValue (score : ℕ) (frames : ℕ) : ℚ :=
  (score : ℚ) + (frames : ℚ) * 0.1

/-- The per-alive-bird body of the frame loop of run_generation
(lines 196-216): flap when the decision function said so (the decision
value is passed in explicitly), advance physics, finalize fitness on a
bounds death, otherwise die with finalized fitness on the first pipe
collision, otherwise credit one survival point. -/
def updateBirdFrame (doFlap : Bool) (pipes : List Pipe) (frame : ℕ) (b : Bird) : Bird :=
  let b2 := Bird.update (if doFlap then Bird.flap b else b)
  if b2.alive = false then { b2 with fitness := fitnessValue b2.score frame }
  else if pipes.any (fun p => p.collides_with b2) then
    { b2 with alive := false, fitness := fitnessValue b2.score frame }
  else { b2 with score := b2.score + 1 }

/-- The frame loop only processes alive birds (the alive_birds filter):
a dead bird is left untouched for the rest of the generation. -/
def frameStepBird (doFlap : Bool) (pipes : List Pipe) (frame : ℕ) (b : Bird) : Bird :=
  if b.alive then updateBirdFrame doFlap pipes frame b else b

/-- End-of-generation fitness finalization for birds still alive at the
frame cap (run_generation lines 225-227). -/
def finalizeFitness (frames : ℕ) (b : Bird) : Bird :=
  if b.alive then { b with fitness := fitnessValue b.score frames } else b

/-- The hard clamp of mutate_brain: max(-3.0, min(3.0, v)). -/
def clamp3 (v : ℚ) : ℚ := max (-3) (min 3 v)

/-- mutate_brain with its random draws externalised: gates i is the event
random.random() < 0.15 for weight i, deltas i the uniform(-0.3, 0.3)
draw; a gated component is perturbed then clamped, an ungated component
is left unchanged; the bias is treated the same way. -/
def mutateBrain (br : Brain) (gates : Fin 4 → Bool) (deltas : Fin 4 → ℚ)
    (biasGate : Bool) (biasDelta : ℚ) : Brain :=
  { weights := fun i => if gates i then clamp3 (br.weights i + deltas i) else br.weights i
    bias := if biasGate then clamp3 (br.bias + biasDelta) else br.bias }

/-- The stable descending-by-fitness sort used on bird/fitness pairs
(Python list.sort with a fitness key and reverse=True is a stable
descending sort). -/
def sortPairs (l : List (Bird × ℚ)) : List (Bird × ℚ) :=
  List.insertionSort (fun a b => b.2 ≤ a.2) l

/-- tournament_selection with the random.sample draw externalised: sort
the sampled pairs descending by fitness and take the head; none models
the IndexError on an empty sample. -/
def tournamentSelection (sample : List (Bird × ℚ)) : Option Bird :=
  ((sortPairs sample).head?).map Prod.fst

/-- Bird() as used by create_next_generation: a fresh bird whose randomly
initialised brain is immediately overwritten, so the brain is a
parameter. -/
def freshBird (br : Brain) : Bird :=
  { x := 100, y := 300, velocity := 0, alive := true, score := 0, fitness := 0, brain := br }

/-- The elite block of create_next_generation: pair birds with fitness
scores, sort descending, and turn the top min(3, n) pairs into fresh
birds carrying verbatim copies of the elite brains. -/
def elitesOf (birds : List Bird) (scores : List ℚ) : List Bird :=
  ((sortPairs (birds.zip scores)).take 3).map (fun pr => freshBird pr.1.copy_brain)

/-- One iteration of the offspring-filling while loop of
create_next_generation, for round k: tournament-select a parent (using
the k-th externalised sample), copy its brain into a fresh bird and
mutate the copy with the k-th externalised mutation draws. -/
def offspringMk (sampleAt : ℕ → List (Bird × ℚ)) (gatesAt : ℕ → Fin 4 → Bool)
    (deltasAt : ℕ → Fin 4 → ℚ) (biasGateAt : ℕ → Bool) (biasDeltaAt : ℕ → ℚ)
    (k : ℕ) : Option Bird :=
  (tournamentSelection (sampleAt k)).map
    (fun parent => freshBird
      (mutateBrain parent.copy_brain (gatesAt k) (deltasAt k) (biasGateAt k) (biasDeltaAt k)))

/-- create_next_generation with all random draws externalised: the elite
block followed by the while loop that appends one mutated offspring per
iteration until the new population reaches popSize. -/
def createNextGeneration (birds : List Bird) (scores : List ℚ) (popSize : ℕ)
    (sampleAt : ℕ → List (Bird × ℚ)) (gatesAt : ℕ → Fin 4 → Bool)
    (deltasAt : ℕ → Fin 4 → ℚ) (biasGateAt : ℕ → Bool) (biasDeltaAt : ℕ → ℚ) :
    Option (List Bird) :=
  match buildList (offspringMk sampleAt gatesAt deltasAt biasGateAt biasDeltaAt) 0
      (popSize - (elitesOf birds scores).length) with
  | none => none
  | some offspring => some (elitesOf birds scores ++ offspring)

/-- The descending-by-fitness relation used by the sort is total. -/
instance : IsTotal (Bird × ℚ) (fun a b => b.2 ≤ a.2) :=
  ⟨fun a b => le_total b.2 a.2⟩

/-- The descending-by-fitness relation used by the sort is transitive. -/
instance : IsTrans (Bird × ℚ) (fun a b => b.2 ≤ a.2) :=
  ⟨fun _ _ _ h1 h2 => le_trans h2 h1⟩

/-- A bird fixture at a given position; only position and aliveness
matter for the collision and physics claims. -/
def birdAt (x y : ℚ) : Bird :=
  { x := x, y := y, velocity := 0, alive := true, score := 0, fitness := 0, brain := zeroBrain }

/-- A bird fixture that dies through the upper bound on its next physics
update (y = 579, velocity = 10). -/
def dyingBird : Bird :=
  { x := 100, y := 579, velocity := 10, alive := true, score := 3, fitness := 0,
    brain := zeroBrain }

/-- A brain fixture distinguished only by its bias. -/
def constBrain (q : ℚ) : Brain := { weights := fun _ => 0, bias := q }

/-- A four-bird population fixture with pairwise distinct brains. -/
def fourBirds : List Bird :=
  [freshBird (constBrain 1), freshBird (constBrain 2), freshBird (constBrain 3),
   freshBird (constBrain 4)]

/-- Fitness scores for the four-bird fixture. -/
def fourScores : List ℚ := [1, 4, 3, 2]

/-- The evolutionary variant population size is fixed at 20; a
twenty-bird fixture. -/
def twentyBirds : List Bird := List.replicate 20 (freshBird zeroBrain)

/-- Fitness scores for the twenty-bird fixture. -/
def twentyScores : List ℚ := List.replicate 20 0

/-- A tournament-sample oracle fixture that always returns a singleton
sample. -/
def oneSample : ℕ → List (Bird × ℚ) := fun _ => [(freshBird zeroBrain, 0)]

/-- A mutation oracle fixture in which no weight mutation event fires. -/
def noGates : ℕ → Fin 4 → Bool := fun _ _ => false

/-- A mutation oracle fixture with all weight deltas zero. -/
def noDeltas : ℕ → Fin 4 → ℚ := fun _ _ => 0

/-- A mutation oracle fixture in which no bias mutation event fires. -/
def noBiasGate : ℕ → Bool := fun _ => false

/-- A mutation oracle fixture with all bias deltas zero. -/
def noBiasDelta : ℕ → ℚ := fun _ => 0

/-- A brain fixture whose weights already sit outside the clamp range. -/
def badBrain : Brain := { weights := fun _ => 4, bias := 0 }

end FlappyAI

namespace FlappyPlayable

/-- The Bird of flappy_playable.py (color omitted; the human bird has no
brain, modelled by none). -/
structure Bird where
  x : ℚ
  y : ℚ
  velocity : ℚ
  alive : Bool
  score : ℕ
  is_ai : Bool
  brain : Option Brain

/-- The Pipe of flappy_playable.py; width is always 80 and speed 2.0 at
construction. -/
structure Pipe where
  x : ℚ
  width : ℚ
  speed : ℚ
  top_height : ℚ
  bottom_height : ℚ

/-- Pipe.update of the playable variant: move left by speed, no
recycling (update_pipes removes and spawns instead). -/
def Pipe.update (p : Pipe) : Pipe := { p with x := p.x - p.speed }

/-- Pipe.passed_by: the bird passed this pipe when bird.x > pipe.x +
pipe.width. -/
def Pipe.passed_by (p : Pipe) (b : Bird) : Bool :=
  decide (b.x > p.x + p.width)

/-- The score-update part of FlappyGame.update_birds (lines 247-254): an
alive bird gains one point if some pipe in the current list is passed
and its right edge is more than 5 units behind the bird; the break makes
it at most one point per frame. -/
def scoreStep (pipes : List Pipe) (b : Bird) : Bird :=
  if b.alive then
    match pipes.find? (fun p => p.passed_by b && decide (p.x + p.width < b.x - 5)) with
    | some _ => { b with score := b.score + 1 }
    | none => b
  else b

/-- The closest-pipe fold step of the playable think, identical in shape
to the evolutionary variant. -/
def closestStep (bx : ℚ) (acc : Option (Pipe × ℚ)) (p : Pipe) : Option (Pipe × ℚ) :=
  if bx - 50 < p.x then
    match acc with
    | none => some (p, |p.x - bx|)
    | some (q, d) => if |p.x - bx| < d then some (p, |p.x - bx|) else some (q, d)
  else acc

/-- The closest-pipe search loop of the playable think. -/
def closestPipe (bx : ℚ) (pipes : List Pipe) : Option Pipe :=
  (pipes.foldl (closestStep bx) none).map Prod.fst

/-- The pipe the playable think uses, with the pipes[0] fallback; none
models the IndexError on an empty list. -/
def targetPipe (bx : ℚ) (pipes : List Pipe) : Option Pipe :=
  match closestPipe bx pipes with
  | some p => some p
  | none => pipes.head?

/-- The four normalized network inputs of the playable think. -/
def inputsOf (b : Bird) (p : Pipe) : Fin 4 → ℚ :=
  ![b.y / 600, b.velocity / 10, (p.x - b.x) / 400,
    ((p.top_height + p.bottom_height) / 2) / 600]

/-- The raw affine output of the playable think for a given brain. -/
def rawOf (b : Bird) (br : Brain) (p : Pipe) : ℚ :=
  br.bias + ∑ i : Fin 4, inputsOf b p i * br.weights i

/-- Bird.think of the playable variant: a human bird returns False
immediately; an AI bird runs the neural decision, raising (none) when it
has to index pipes[0] on an empty list or dereference a missing brain. -/
def think (b : Bird) (pipes : List Pipe) : Option Prop :=
  if b.is_ai then
    match b.brain with
    | some br => (targetPipe b.x pipes).map (fun p => flapProp (rawOf b br p))
    | none => none
  else some False

/-- The human bird fixture of FlappyGame (x=100, y=250, not AI). -/
def humanBird : Bird :=
  { x := 100, y := 250, velocity := 0, alive := true, score := 0, is_ai := false, brain := none }

/-- A pipe whose right edge (x + 80 = 90) is already more than 5 units
behind the human bird at x = 100, but which is still on screen. -/
def passedPipe : Pipe :=
  { x := 10, width := 80, speed := 2, top_height := 100, bottom_height := 500 }

end FlappyPlayable

/-! ## Theorems -/

/-- C2: one physics update adds the gravity constant 0.4 to the velocity
and then adds the updated velocity to the vertical position; a flap
overrides the velocity with -7.0 regardless of its previous value (it
does not accumulate), and a flap followed by the frame physics update
gives velocity -7.0 + 0.4 exactly. -/
theorem physics_update_contract :
    ∀ b : FlappyAI.Bird,
      (b.update).velocity = b.velocity + 0.4 ∧
      (b.update).y = b.y + (b.update).velocity ∧
      (b.flap).velocity = -7.0 ∧
      (b.flap).y = b.y ∧
      ((b.flap).update).velocity = -7.0 + 0.4 ∧
      ((b.flap).update).y = b.y + (-7.0 + 0.4) :=
  fun _ => ⟨rfl, rfl, rfl, rfl, rfl, rfl⟩

/-- C3 counterexample: an alive agent at y = 0.0 with velocity 0 (which
satisfies velocity ≤ 0) is still alive after one physics update, because
gravity is added before the move, leaving y = 0.4 inside the bounds;
the claim says it should be marked dead. -/
theorem bounds_death_claim_cex :
    (FlappyAI.Bird.update (FlappyAI.birdAt 100 0)).alive = true := by
  simp only [FlappyAI.Bird.update, FlappyAI.birdAt]
  norm_num

/-- C3 (amended): an alive agent at y = 0.0 is marked dead by one physics
update whenever velocity ≤ -0.4; an alive agent at y = 579.9 with
velocity ≥ 0.1 is marked dead; in general an alive agent is marked dead
by the update exactly when its post-move y (y + velocity + 0.4) leaves
the open interval (0, 580). -/
theorem bounds_death_amended :
    (∀ b : FlappyAI.Bird, b.alive = true → b.y = 0 → b.velocity ≤ -0.4 →
      (b.update).alive = false) ∧
    (∀ b : FlappyAI.Bird, b.alive = true → b.y = 579.9 → 0.1 ≤ b.velocity →
      (b.update).alive = false) ∧
    (∀ b : FlappyAI.Bird, b.alive = true →
      ((b.update).alive = false ↔
        (b.y + (b.velocity + 0.4) ≤ 0 ∨ b.y + (b.velocity + 0.4) ≥ 580))) := by
  refine ⟨?_, ?_, ?_⟩
  · intro b hb hy hv
    simp only [FlappyAI.Bird.update]
    rw [if_pos]
    left
    rw [hy]
    linarith
  · intro b hb hy hv
    simp only [FlappyAI.Bird.update]
    rw [if_pos]
    right
    rw [hy]
    linarith
  · intro b hb
    simp only [FlappyAI.Bird.update, hb]
    split <;> simp_all

/-- Witness for C3 (amended): an agent at y = 0 with velocity -1 dies,
and an agent at y = 579.9 with velocity 0.1 dies. -/
theorem bounds_death_amended_witness :
    (FlappyAI.Bird.update
      { x := 100, y := 0, velocity := -1, alive := true, score := 0, fitness := 0,
        brain := zeroBrain }).alive = false ∧
    (FlappyAI.Bird.update
      { x := 100, y := 579.9, velocity := 0.1, alive := true, score := 0, fitness := 0,
        brain := zeroBrain }).alive = false :=
  ⟨bounds_death_amended.1 _ rfl rfl (by norm_num),
   bounds_death_amended.2.1 _ rfl rfl (by norm_num)⟩

/-- C5: the collision test returns true iff the horizontal extents
strictly overlap and the vertical extent of the bird pokes above the top
gap bound or below the bottom gap bound; an agent at y = 300 against a
pipe at the same x with gap 100..500 reports no collision, and with gap
top 310 reports a collision. -/
theorem collision_test_contract :
    (∀ (p : FlappyAI.Pipe) (b : FlappyAI.Bird),
      p.collides_with b = true ↔
        ((b.x + 12 > p.x ∧ b.x - 12 < p.x + p.width) ∧
         (b.y - 12 < p.top_height ∨ b.y + 12 > p.bottom_height))) ∧
    (∀ x : ℚ,
      (FlappyAI.Pipe.mk x 80 100 500).collides_with (FlappyAI.birdAt x 300) = false) ∧
    (∀ x : ℚ,
      (FlappyAI.Pipe.mk x 80 310 500).collides_with (FlappyAI.birdAt x 300) = true) := by
  refine ⟨?_, ?_, ?_⟩
  · intro p b
    simp only [FlappyAI.Pipe.collides_with]
    split_ifs with h1 h2 <;> simp_all
  · intro x
    simp only [FlappyAI.Pipe.collides_with, FlappyAI.birdAt]
    norm_num
  · intro x
    simp only [FlappyAI.Pipe.collides_with, FlappyAI.birdAt]
    rw [if_pos, if_pos]
    · left
      norm_num
    · constructor <;> linarith

/-- The physics update never changes the score. -/
theorem update_preserves_score (b : FlappyAI.Bird) : (b.update).score = b.score := rfl

/-- The physics update never changes the fitness. -/
theorem update_preserves_fitness (b : FlappyAI.Bird) : (b.update).fitness = b.fitness := rfl

/-- The flap-then-update prefix of the frame body never changes the
score. -/
theorem preUpdate_score (doFlap : Bool) (b : FlappyAI.Bird) :
    (FlappyAI.Bird.update (if doFlap then FlappyAI.Bird.flap b else b)).score = b.score := by
  cases doFlap <;> rfl

/-- The flap-then-update prefix of the frame body never changes the
fitness. -/
theorem preUpdate_fitness (doFlap : Bool) (b : FlappyAI.Bird) :
    (FlappyAI.Bird.update (if doFlap then FlappyAI.Bird.flap b else b)).fitness = b.fitness := by
  cases doFlap <;> rfl

/-- A flap never changes the score. -/
theorem flap_preserves_score (b : FlappyAI.Bird) : (b.flap).score = b.score := rfl

/-- A flap never changes the fitness. -/
theorem flap_preserves_fitness (b : FlappyAI.Bird) : (b.flap).fitness = b.fitness := rfl

/-- C4: fitness is score + frames * 0.1, assigned exactly at the moment
of death with the current frame count (and never while the bird stays
alive), dead birds are excluded from further frame processing, the
end-of-loop finalization assigns the same formula once more only to
birds still alive at the frame cap, and the formula is strictly
increasing in frames survived (score fixed) and non-decreasing in both
arguments. -/
theorem fitness_eval_contract :
    (∀ (doFlap : Bool) (pipes : List FlappyAI.Pipe) (frame : ℕ) (b : FlappyAI.Bird),
      b.alive = true →
        (((FlappyAI.updateBirdFrame doFlap pipes frame b).alive = false →
            (FlappyAI.updateBirdFrame doFlap pipes frame b).fitness =
              FlappyAI.fitnessValue b.score frame ∧
            (FlappyAI.updateBirdFrame doFlap pipes frame b).score = b.score) ∧
          ((FlappyAI.updateBirdFrame doFlap pipes frame b).alive = true →
            (FlappyAI.updateBirdFrame doFlap pipes frame b).fitness = b.fitness))) ∧
    (∀ (doFlap : Bool) (pipes : List FlappyAI.Pipe) (frame : ℕ) (b : FlappyAI.Bird),
      b.alive = false → FlappyAI.frameStepBird doFlap pipes frame b = b) ∧
    (∀ (frames : ℕ) (b : FlappyAI.Bird), b.alive = true →
      (FlappyAI.finalizeFitness frames b).fitness = FlappyAI.fitnessValue b.score frames) ∧
    (∀ (frames : ℕ) (b : FlappyAI.Bird), b.alive = false →
      FlappyAI.finalizeFitness frames b = b) ∧
    (∀ s f₁ f₂ : ℕ, f₁ < f₂ → FlappyAI.fitnessValue s f₁ < FlappyAI.fitnessValue s f₂) ∧
    (∀ s₁ s₂ f : ℕ, s₁ ≤ s₂ → FlappyAI.fitnessValue s₁ f ≤ FlappyAI.fitnessValue s₂ f) ∧
    (∀ s f₁ f₂ : ℕ, f₁ ≤ f₂ → FlappyAI.fitnessValue s f₁ ≤ FlappyAI.fitnessValue s f₂) := by
  refine ⟨?_, ?_, ?_, ?_, ?_, ?_, ?_⟩
  · intro doFlap pipes frame b hb
    simp only [FlappyAI.updateBirdFrame]
    split_ifs with h1 h2 <;>
      simp_all [update_preserves_score, update_preserves_fitness, flap_preserves_score,
        flap_preserves_fitness]
  · intro doFlap pipes frame b hb
    simp [FlappyAI.frameStepBird, hb]
  · intro frames b hb
    simp [FlappyAI.finalizeFitness, hb]
  · intro frames b hb
    simp [FlappyAI.finalizeFitness, hb]
  · intro s f₁ f₂ h
    have hc : (f₁ : ℚ) < (f₂ : ℚ) := by exact_mod_cast h
    simp only [FlappyAI.fitnessValue]
    linarith
  · intro s₁ s₂ f h
    have hc : (s₁ : ℚ) ≤ (s₂ : ℚ) := by exact_mod_cast h
    simp only [FlappyAI.fitnessValue]
    linarith
  · intro s f₁ f₂ h
    have hc : (f₁ : ℚ) ≤ (f₂ : ℚ) := by exact_mod_cast h
    simp only [FlappyAI.fitnessValue]
    linarith

/-- Witness for C4: a concrete bird that dies by the bounds check at
frame 7 receives fitness score + 7 * 0.1 at that moment with its score
unchanged, and the fitness formula strictly increases from 7 to 8
frames. -/
theorem fitness_eval_contract_witness :
    (FlappyAI.updateBirdFrame false [] 7 FlappyAI.dyingBird).fitness =
      FlappyAI.fitnessValue FlappyAI.dyingBird.score 7 ∧
    (FlappyAI.updateBirdFrame false [] 7 FlappyAI.dyingBird).score =
      FlappyAI.dyingBird.score ∧
    FlappyAI.fitnessValue 3 7 < FlappyAI.fitnessValue 3 8 := by
  have hdead : (FlappyAI.updateBirdFrame false [] 7 FlappyAI.dyingBird).alive = false := by
    norm_num [FlappyAI.updateBirdFrame, FlappyAI.Bird.update, FlappyAI.dyingBird]
  have h := (fitness_eval_contract.1 false [] 7 FlappyAI.dyingBird rfl).1 hdead
  exact ⟨h.1, h.2, fitness_eval_contract.2.2.2.2.1 3 7 8 (by norm_num)⟩

/-- The sigmoid flap decision holds exactly when the raw sum is strictly
positive: the clamp bounds straddle 0, the exponential is monotone, and
the logistic of 0 is exactly one half. -/
theorem flapProp_iff (r : ℚ) : flapProp r ↔ 0 < r := by
  unfold flapProp
  set c : ℝ := max (-500 : ℝ) (min 500 (r : ℝ)) with hc
  have hE : (0 : ℝ) < Real.exp (-c) := Real.exp_pos _
  have hpos : (0 : ℝ) < 1 + Real.exp (-c) := by linarith
  rw [gt_iff_lt, div_lt_div_iff₀ two_pos hpos, one_mul, one_mul]
  constructor
  · intro h
    have h1 : Real.exp (-c) < 1 := by linarith
    have h2 : -c < 0 := Real.exp_lt_one_iff.mp h1
    have h3 : (0 : ℝ) < c := by linarith
    rw [hc] at h3
    rcases lt_max_iff.mp h3 with h4 | h4
    · norm_num at h4
    · exact_mod_cast (lt_min_iff.mp h4).2
  · intro h
    have hr : (0 : ℝ) < (r : ℝ) := by exact_mod_cast h
    have h3 : (0 : ℝ) < c := by
      rw [hc]
      exact lt_max_iff.mpr (Or.inr (lt_min_iff.mpr ⟨by norm_num, hr⟩))
    have h2 : Real.exp (-c) < 1 := Real.exp_lt_one_iff.mpr (by linarith)
    linarith

/-- Folding the closest-pipe step over a list with no candidate pipe
leaves the accumulator empty. -/
theorem foldl_closest_none (bx : ℚ) :
    ∀ pipes : List FlappyAI.Pipe, (∀ p ∈ pipes, ¬ (bx - 50 < p.x)) →
      pipes.foldl (FlappyAI.closestStep bx) none = none := by
  intro pipes
  induction pipes with
  | nil => intro _; rfl
  | cons a l ih =>
    intro h
    have ha : FlappyAI.closestStep bx none a = none := by
      unfold FlappyAI.closestStep
      rw [if_neg (h a (List.mem_cons_self a l))]
    simp only [List.foldl_cons, ha]
    exact ih (fun p hp => h p (List.mem_cons_of_mem a hp))

/-- With no candidate pipe the closest-pipe search returns nothing. -/
theorem closestPipe_eq_none (bx : ℚ) (pipes : List FlappyAI.Pipe)
    (h : ∀ p ∈ pipes, ¬ (bx - 50 < p.x)) :
    FlappyAI.closestPipe bx pipes = none := by
  unfold FlappyAI.closestPipe
  rw [foldl_closest_none bx pipes h]
  rfl

/-- On a non-empty pipe list the target-pipe selection always produces a
pipe (either the closest candidate or the pipes[0] fallback). -/
theorem targetPipe_some (bx : ℚ) (pipes : List FlappyAI.Pipe) (h : pipes ≠ []) :
    ∃ p, FlappyAI.targetPipe bx pipes = some p := by
  unfold FlappyAI.targetPipe
  cases hc : FlappyAI.closestPipe bx pipes with
  | some q => exact ⟨q, rfl⟩
  | none =>
    cases pipes with
    | nil => exact absurd rfl h
    | cons a l => exact ⟨a, rfl⟩

/-- With the all-zero brain the raw affine output is 0 for every pipe. -/
theorem rawOf_zeroBrain (b : FlappyAI.Bird) (p : FlappyAI.Pipe)
    (hb : b.brain = zeroBrain) : FlappyAI.rawOf b p = 0 := by
  simp [FlappyAI.rawOf, hb, zeroBrain]

/-- C6: an agent whose brain has all four weights and the bias equal to
zero never flaps: for every non-empty pipe list the decision function
selects a target pipe, the raw sum is exactly 0, and the sigmoid
decision is false; moreover the clamped logistic value at raw 0 is
exactly one half, and in general the flap decision holds iff the raw sum
is strictly positive. -/
theorem zero_brain_never_flaps :
    (∀ (b : FlappyAI.Bird) (pipes : List FlappyAI.Pipe),
      b.brain = zeroBrain → pipes ≠ [] →
        ∃ p, FlappyAI.targetPipe b.x pipes = some p ∧
          FlappyAI.think b pipes = some (flapProp (FlappyAI.rawOf b p)) ∧
          FlappyAI.rawOf b p = 0 ∧ ¬ flapProp (FlappyAI.rawOf b p)) ∧
    (1 / (1 + Real.exp (-(max (-500 : ℝ) (min 500 (((0 : ℚ) : ℝ)))))) = 1 / 2) ∧
    (∀ r : ℚ, flapProp r ↔ 0 < r) := by
  refine ⟨?_, ?_, flapProp_iff⟩
  · intro b pipes hbrain hne
    obtain ⟨p, hp⟩ := targetPipe_some b.x pipes hne
    refine ⟨p, hp, ?_, rawOf_zeroBrain b p hbrain, ?_⟩
    · unfold FlappyAI.think
      rw [hp]
      rfl
    · rw [rawOf_zeroBrain b p hbrain, flapProp_iff]
      exact lt_irrefl 0
  · have hclamp : max (-500 : ℝ) (min 500 (((0 : ℚ) : ℝ))) = 0 := by norm_num
    rw [hclamp, neg_zero, Real.exp_zero]
    norm_num

/-- Witness for C6: the concrete zero-brained agent at (100, 300) with a
single concrete pipe selects that pipe and does not flap. -/
theorem zero_brain_never_flaps_witness :
    ∃ p, FlappyAI.targetPipe (FlappyAI.birdAt 100 300).x [FlappyAI.Pipe.mk 400 80 150 350] =
        some p ∧
      FlappyAI.think (FlappyAI.birdAt 100 300) [FlappyAI.Pipe.mk 400 80 150 350] =
        some (flapProp (FlappyAI.rawOf (FlappyAI.birdAt 100 300) p)) ∧
      FlappyAI.rawOf (FlappyAI.birdAt 100 300) p = 0 ∧
      ¬ flapProp (FlappyAI.rawOf (FlappyAI.birdAt 100 300) p) :=
  zero_brain_never_flaps.1 (FlappyAI.birdAt 100 300) [FlappyAI.Pipe.mk 400 80 150 350]
    rfl (by simp)

/-- C10: the decision function is total exactly on non-empty obstacle
lists: on the empty list it fails (the pipes[0] fallback raises), on any
non-empty list it produces a decision; when no pipe satisfies the
nearest-obstacle condition the selection falls back to element 0; and in
the playable variant an AI agent's think fails on the empty list the
same way. -/
theorem think_total_iff_nonempty :
    (∀ b : FlappyAI.Bird, FlappyAI.think b [] = none) ∧
    (∀ (b : FlappyAI.Bird) (pipes : List FlappyAI.Pipe), pipes ≠ [] →
      ∃ P, FlappyAI.think b pipes = some P) ∧
    (∀ (b : FlappyAI.Bird) (pipes : List FlappyAI.Pipe),
      (∀ p ∈ pipes, ¬ (b.x - 50 < p.x)) →
        FlappyAI.targetPipe b.x pipes = pipes.head?) ∧
    (∀ hb : FlappyPlayable.Bird, hb.is_ai = true →
      FlappyPlayable.think hb [] = none) := by
  refine ⟨?_, ?_, ?_, ?_⟩
  · intro b
    rfl
  · intro b pipes h
    obtain ⟨p, hp⟩ := targetPipe_some b.x pipes h
    refine ⟨flapProp (FlappyAI.rawOf b p), ?_⟩
    unfold FlappyAI.think
    rw [hp]
    rfl
  · intro b pipes h
    unfold FlappyAI.targetPipe
    rw [closestPipe_eq_none b.x pipes h]
  · intro hb h
    unfold FlappyPlayable.think
    rw [if_pos h]
    cases hb.brain with
    | none => rfl
    | some br => rfl

/-- Witness for C10: a concrete agent with one concrete pipe receives a
decision, and a concrete playable AI agent fails on the empty list. -/
theorem think_total_iff_nonempty_witness :
    (∃ P, FlappyAI.think (FlappyAI.birdAt 100 300) [FlappyAI.Pipe.mk 400 80 150 350] =
      some P) ∧
    FlappyPlayable.think
      { x := 100, y := 300, velocity := 0, alive := true, score := 0, is_ai := true,
        brain := some zeroBrain } [] = none :=
  ⟨think_total_iff_nonempty.2.1 (FlappyAI.birdAt 100 300)
      [FlappyAI.Pipe.mk 400 80 150 350] (by simp),
   think_total_iff_nonempty.2.2.2 _ rfl⟩

/-- The hard clamp always lands in [-3, 3]. -/
theorem clamp3_mem (v : ℚ) : -3 ≤ FlappyAI.clamp3 v ∧ FlappyAI.clamp3 v ≤ 3 := by
  unfold FlappyAI.clamp3
  exact ⟨le_max_left _ _, max_le (by norm_num) (min_le_left _ _)⟩

/-- C7 counterexample: mutate_brain only clamps the components whose
mutation event fires; applied to a brain whose first weight is 4, with
no mutation event firing, the step returns that weight unchanged at 4,
outside [-3, 3] — refuting the claim as stated, which quantifies over
every brain. -/
theorem mutation_clamp_claim_cex :
    (FlappyAI.mutateBrain FlappyAI.badBrain (fun _ => false) (fun _ => 0) false 0).weights 0
        = 4 ∧
    ¬ (-3 ≤ (FlappyAI.mutateBrain FlappyAI.badBrain (fun _ => false) (fun _ => 0) false
            0).weights 0 ∧
        (FlappyAI.mutateBrain FlappyAI.badBrain (fun _ => false) (fun _ => 0) false
            0).weights 0 ≤ 3) := by
  have h : (FlappyAI.mutateBrain FlappyAI.badBrain (fun _ => false) (fun _ => 0) false
      0).weights 0 = 4 := rfl
  refine ⟨h, ?_⟩
  rw [h]
  norm_num

/-- C7 (amended): for every brain whose weights and bias already lie in
[-3, 3] — which is true of every brain the program creates — one
mutation step keeps all four weights and the bias in [-3, 3]; moreover
any component whose mutation event fires is clamped into [-3, 3]
unconditionally, whatever the perturbation. -/
theorem mutation_clamp_amended :
    (∀ (br : Brain) (gates : Fin 4 → Bool) (deltas : Fin 4 → ℚ) (bg : Bool) (bd : ℚ),
      (∀ i, -3 ≤ br.weights i ∧ br.weights i ≤ 3) → (-3 ≤ br.bias ∧ br.bias ≤ 3) →
        ((∀ i, -3 ≤ (FlappyAI.mutateBrain br gates deltas bg bd).weights i ∧
            (FlappyAI.mutateBrain br gates deltas bg bd).weights i ≤ 3) ∧
          (-3 ≤ (FlappyAI.mutateBrain br gates deltas bg bd).bias ∧
            (FlappyAI.mutateBrain br gates deltas bg bd).bias ≤ 3))) ∧
    (∀ (br : Brain) (gates : Fin 4 → Bool) (deltas : Fin 4 → ℚ) (bg : Bool) (bd : ℚ)
        (i : Fin 4), gates i = true →
      -3 ≤ (FlappyAI.mutateBrain br gates deltas bg bd).weights i ∧
        (FlappyAI.mutateBrain br gates deltas bg bd).weights i ≤ 3) ∧
    (∀ (br : Brain) (gates : Fin 4 → Bool) (deltas : Fin 4 → ℚ) (bg : Bool) (bd : ℚ),
      bg = true →
        -3 ≤ (FlappyAI.mutateBrain br gates deltas bg bd).bias ∧
          (FlappyAI.mutateBrain br gates deltas bg bd).bias ≤ 3) := by
  refine ⟨?_, ?_, ?_⟩
  · intro br gates deltas bg bd hw hb
    constructor
    · intro i
      simp only [FlappyAI.mutateBrain]
      by_cases hg : gates i = true
      · rw [if_pos hg]
        exact clamp3_mem _
      · rw [if_neg hg]
        exact hw i
    · simp only [FlappyAI.mutateBrain]
      by_cases hg : bg = true
      · rw [if_pos hg]
        exact clamp3_mem _
      · rw [if_neg hg]
        exact hb
  · intro br gates deltas bg bd i hg
    simp only [FlappyAI.mutateBrain]
    rw [if_pos hg]
    exact clamp3_mem _
  · intro br gates deltas bg bd hg
    simp only [FlappyAI.mutateBrain]
    rw [if_pos hg]
    exact clamp3_mem _

/-- Witness for C7 (amended): the in-range zero brain, with every
mutation event firing and out-of-range perturbations of 10, still lands
in [-3, 3] thanks to the clamp. -/
theorem mutation_clamp_amended_witness :
    (∀ i, -3 ≤ (FlappyAI.mutateBrain zeroBrain (fun _ => true) (fun _ => 10) true
          10).weights i ∧
        (FlappyAI.mutateBrain zeroBrain (fun _ => true) (fun _ => 10) true 10).weights i ≤ 3) ∧
      (-3 ≤ (FlappyAI.mutateBrain zeroBrain (fun _ => true) (fun _ => 10) true 10).bias ∧
        (FlappyAI.mutateBrain zeroBrain (fun _ => true) (fun _ => 10) true 10).bias ≤ 3) :=
  mutation_clamp_amended.1 zeroBrain (fun _ => true) (fun _ => 10) true 10
    (fun i => by norm_num [zeroBrain]) (by norm_num [zeroBrain])

/-- A successful buildList produces exactly the requested number of
elements (the while loop appends one per iteration). -/
theorem buildList_length {α : Type} (mk : ℕ → Option α) :
    ∀ (n k : ℕ) (l : List α), buildList mk k n = some l → l.length = n := by
  intro n
  induction n with
  | zero =>
    intro k l h
    simp only [buildList, Option.some.injEq] at h
    rw [← h]
    rfl
  | succ n ih =>
    intro k l h
    cases hm : mk k with
    | none => simp [buildList, hm] at h
    | some a =>
      cases hb : buildList mk (k + 1) n with
      | none => simp [buildList, hm, hb] at h
      | some rest =>
        simp only [buildList, hm, hb, Option.some.injEq] at h
        rw [← h, List.length_cons, ih (k + 1) rest hb]

/-- buildList succeeds whenever every round succeeds. -/
theorem buildList_isSome {α : Type} (mk : ℕ → Option α)
    (hmk : ∀ k, (mk k).isSome = true) :
    ∀ n k, (buildList mk k n).isSome = true := by
  intro n
  induction n with
  | zero => intro k; rfl
  | succ n ih =>
    intro k
    cases hm : mk k with
    | none =>
      have hk := hmk k
      rw [hm] at hk
      simp at hk
    | some a =>
      cases hb : buildList mk (k + 1) n with
      | none =>
        have hk := ih (k + 1)
        rw [hb] at hk
        simp at hk
      | some rest => simp [buildList, hm, hb]

/-- The descending sort is a permutation of its input. -/
theorem sortPairs_perm (l : List (FlappyAI.Bird × ℚ)) :
    (FlappyAI.sortPairs l).Perm l :=
  List.perm_insertionSort _ l

/-- The descending sort preserves length. -/
theorem sortPairs_length (l : List (FlappyAI.Bird × ℚ)) :
    (FlappyAI.sortPairs l).length = l.length :=
  (sortPairs_perm l).length_eq

/-- The descending sort really sorts: fitness values are non-increasing
along the output. -/
theorem sortPairs_sorted (l : List (FlappyAI.Bird × ℚ)) :
    List.Sorted (fun a b => b.2 ≤ a.2) (FlappyAI.sortPairs l) :=
  List.sorted_insertionSort _ l

/-- Tournament selection succeeds on every non-empty sample. -/
theorem tournamentSelection_isSome (sample : List (FlappyAI.Bird × ℚ))
    (h : sample ≠ []) :
    (FlappyAI.tournamentSelection sample).isSome = true := by
  unfold FlappyAI.tournamentSelection
  have hlen : (FlappyAI.sortPairs sample).length = sample.length := sortPairs_length sample
  cases hs : FlappyAI.sortPairs sample with
  | nil =>
    rw [hs] at hlen
    cases sample with
    | nil => exact absurd rfl h
    | cons a l => simp at hlen
  | cons a l => simp [hs]

/-- create_next_generation succeeds whenever every tournament sample is
non-empty. -/
theorem createNextGeneration_total (birds : List FlappyAI.Bird) (scores : List ℚ)
    (popSize : ℕ) (sampleAt : ℕ → List (FlappyAI.Bird × ℚ))
    (gatesAt : ℕ → Fin 4 → Bool) (deltasAt : ℕ → Fin 4 → ℚ) (bgAt : ℕ → Bool)
    (bdAt : ℕ → ℚ) (h : ∀ k, sampleAt k ≠ []) :
    ∃ l, FlappyAI.createNextGeneration birds scores popSize sampleAt gatesAt deltasAt
      bgAt bdAt = some l := by
  unfold FlappyAI.createNextGeneration
  have hmk : ∀ k, (FlappyAI.offspringMk sampleAt gatesAt deltasAt bgAt bdAt k).isSome
      = true := by
    intro k
    unfold FlappyAI.offspringMk
    have ht := tournamentSelection_isSome (sampleAt k) (h k)
    cases hts : FlappyAI.tournamentSelection (sampleAt k) with
    | none =>
      rw [hts] at ht
      simp at ht
    | some parent => simp [hts]
  have hb := buildList_isSome _ hmk
    (popSize - (FlappyAI.elitesOf birds scores).length) 0
  cases hbl : buildList (FlappyAI.offspringMk sampleAt gatesAt deltasAt bgAt bdAt) 0
      (popSize - (FlappyAI.elitesOf birds scores).length) with
  | none =>
    rw [hbl] at hb
    simp at hb
  | some off => exact ⟨_, rfl⟩

/-- C9: generational replacement preserves the population size: whenever
the population and its fitness list both have length popSize and
create_next_generation completes, the new population has exactly popSize
agents (min(3, popSize) elites plus the offspring the while loop filled
in). -/
theorem population_size_invariant :
    ∀ (birds : List FlappyAI.Bird) (scores : List ℚ) (popSize : ℕ)
      (sampleAt : ℕ → List (FlappyAI.Bird × ℚ)) (gatesAt : ℕ → Fin 4 → Bool)
      (deltasAt : ℕ → Fin 4 → ℚ) (bgAt : ℕ → Bool) (bdAt : ℕ → ℚ)
      (newGen : List FlappyAI.Bird),
      birds.length = popSize → scores.length = popSize →
      FlappyAI.createNextGeneration birds scores popSize sampleAt gatesAt deltasAt
        bgAt bdAt = some newGen →
      newGen.length = popSize := by
  intro birds scores popSize sampleAt gatesAt deltasAt bgAt bdAt newGen hb hs h
  unfold FlappyAI.createNextGeneration at h
  split at h
  · simp at h
  · rename_i offspring hoff
    injection h with h2
    subst h2
    rw [List.length_append, buildList_length _ _ 0 offspring hoff]
    have hE : (FlappyAI.elitesOf birds scores).length = min 3 popSize := by
      unfold FlappyAI.elitesOf
      rw [List.length_map, List.length_take, sortPairs_length, List.length_zip, hb, hs,
        min_self]
    rw [hE]
    exact Nat.add_sub_cancel' (min_le_right 3 popSize)

/-- Witness for C9: with the fixed population size 20 of the evolutionary
variant, a concrete 20-bird population with concrete scores and
singleton tournament samples yields a next generation of exactly 20
birds. -/
theorem population_size_invariant_witness :
    ∃ l, FlappyAI.createNextGeneration FlappyAI.twentyBirds FlappyAI.twentyScores 20
        FlappyAI.oneSample FlappyAI.noGates FlappyAI.noDeltas FlappyAI.noBiasGate
        FlappyAI.noBiasDelta = some l ∧ l.length = 20 := by
  obtain ⟨l, hl⟩ := createNextGeneration_total FlappyAI.twentyBirds FlappyAI.twentyScores 20
    FlappyAI.oneSample FlappyAI.noGates FlappyAI.noDeltas FlappyAI.noBiasGate
    FlappyAI.noBiasDelta (fun k => by simp [FlappyAI.oneSample])
  exact ⟨l, hl,
    population_size_invariant FlappyAI.twentyBirds FlappyAI.twentyScores 20
      FlappyAI.oneSample FlappyAI.noGates FlappyAI.noDeltas FlappyAI.noBiasGate
      FlappyAI.noBiasDelta l (by simp [FlappyAI.twentyBirds])
      (by simp [FlappyAI.twentyScores]) hl⟩

/-- C8: whenever the population has at least 3 agents (with a matching
fitness list) and create_next_generation completes, the first 3 agents
of the next generation carry exactly the brains of the top 3
fitness-ranked pairs — verbatim, untouched by the mutation draws, which
the statement quantifies over; the ranked list is genuinely sorted
non-increasingly by fitness and is a permutation of the paired input. -/
theorem elitism_verbatim :
    ∀ (birds : List FlappyAI.Bird) (scores : List ℚ) (popSize : ℕ)
      (sampleAt : ℕ → List (FlappyAI.Bird × ℚ)) (gatesAt : ℕ → Fin 4 → Bool)
      (deltasAt : ℕ → Fin 4 → ℚ) (bgAt : ℕ → Bool) (bdAt : ℕ → ℚ)
      (newGen : List FlappyAI.Bird),
      3 ≤ birds.length → scores.length = birds.length →
      FlappyAI.createNextGeneration birds scores popSize sampleAt gatesAt deltasAt
        bgAt bdAt = some newGen →
      ((newGen.take 3).map FlappyAI.Bird.brain =
          ((FlappyAI.sortPairs (birds.zip scores)).take 3).map (fun pr => pr.1.brain) ∧
        List.Sorted (fun a b => b.2 ≤ a.2) (FlappyAI.sortPairs (birds.zip scores)) ∧
        (FlappyAI.sortPairs (birds.zip scores)).Perm (birds.zip scores)) := by
  intro birds scores popSize sampleAt gatesAt deltasAt bgAt bdAt newGen h3 hs h
  refine ⟨?_, sortPairs_sorted _, sortPairs_perm _⟩
  unfold FlappyAI.createNextGeneration at h
  split at h
  · simp at h
  · rename_i offspring hoff
    injection h with h2
    subst h2
    have hlen : (FlappyAI.elitesOf birds scores).length = 3 := by
      unfold FlappyAI.elitesOf
      rw [List.length_map, List.length_take, sortPairs_length, List.length_zip, hs,
        min_self]
      exact min_eq_left h3
    rw [List.take_append_of_le_length (le_of_eq hlen.symm),
      List.take_of_length_le (le_of_eq hlen)]
    unfold FlappyAI.elitesOf
    rw [List.map_map]
    rfl

/-- Witness for C8: a concrete four-bird population with distinct brains
and scores 1, 4, 3, 2 hands the top three brains verbatim to the next
generation. -/
theorem elitism_verbatim_witness :
    ∃ l, FlappyAI.createNextGeneration FlappyAI.fourBirds FlappyAI.fourScores 4
        FlappyAI.oneSample FlappyAI.noGates FlappyAI.noDeltas FlappyAI.noBiasGate
        FlappyAI.noBiasDelta = some l ∧
      (l.take 3).map FlappyAI.Bird.brain =
        ((FlappyAI.sortPairs (FlappyAI.fourBirds.zip FlappyAI.fourScores)).take 3).map
          (fun pr => pr.1.brain) := by
  obtain ⟨l, hl⟩ := createNextGeneration_total FlappyAI.fourBirds FlappyAI.fourScores 4
    FlappyAI.oneSample FlappyAI.noGates FlappyAI.noDeltas FlappyAI.noBiasGate
    FlappyAI.noBiasDelta (fun k => by simp [FlappyAI.oneSample])
  exact ⟨l, hl,
    (elitism_verbatim FlappyAI.fourBirds FlappyAI.fourScores 4 FlappyAI.oneSample
      FlappyAI.noGates FlappyAI.noDeltas FlappyAI.noBiasGate FlappyAI.noBiasDelta l
      (by simp [FlappyAI.fourBirds]) (by simp [FlappyAI.fourScores, FlappyAI.fourBirds])
      hl).1⟩

/-- C1: the playable variant has no per-obstacle pass latch: the score
condition (pipe fully passed, with a 5 unit margin) stays true on every
subsequent frame while the passed pipe is still on screen, so the same
obstacle is credited once per frame, twice across two consecutive
frames here — the code contradicts the one-point-per-obstacle-pass
scoring the spec (and the code's own score-when-passing comment)
describe. -/
theorem playable_score_repeat_bug :
    FlappyPlayable.Pipe.passed_by FlappyPlayable.passedPipe FlappyPlayable.humanBird = true ∧
    (FlappyPlayable.scoreStep [FlappyPlayable.passedPipe] FlappyPlayable.humanBird).score
      = 1 ∧
    (FlappyPlayable.scoreStep [FlappyPlayable.passedPipe.update]
      (FlappyPlayable.scoreStep [FlappyPlayable.passedPipe]
        FlappyPlayable.humanBird)).score = 2 := by
  refine ⟨?_, ?_, ?_⟩ <;>
    norm_num [FlappyPlayable.scoreStep, FlappyPlayable.humanBird, FlappyPlayable.passedPipe,
      FlappyPlayable.Pipe.passed_by, FlappyPlayable.Pipe.update, List.find?_singleton]
